import Mathlib

/-!
Verification of the repayment / payment-authorization lifecycle of the
TrustEdge loan application (frontend client in `src/trustedge-frontend`,
server-side lifecycle described in the design document).

Money amounts are modelled as rationals (ℚ); dates as integers in the
order-preserving `yyyymmdd` encoding; external identifiers as naturals.
-/

namespace TrustEdge

/-- Currency-minor-unit rounding, half-up, to 2 decimal places: this is the
`Math.round(m * 100) / 100` of `src/unnamed/part_000` (Services.jsx loan
calculator) and the "Round `m` to 2 decimal places (half-up)" of the design
document, over ℚ. -/
def round2 (q : ℚ) : ℚ := ((⌊q * 100 + 1 / 2⌋ : ℤ) : ℚ) / 100

/- ---------------- Schedule Generator ---------------- -/

/-- The exact (unrounded) monthly payment.  From `src/unnamed/part_000`
lines 34-53: with monthly rate `r = annual / 12`, the payment is
`P / n` when `r = 0` and `P * r / (1 - (1+r)^(-n))` otherwise; the design
document (§4.1) states the same formula for the server-side generator. -/
def monthlyPaymentExact (P annual : ℚ) (n : ℕ) : ℚ :=
  let r := annual / 12
  if r = 0 then P / n
  else P * r / (1 - (1 + r) ^ (-(n : ℤ)))

/-- Rounded monthly payment `m` (half-up, 2 decimal places). -/
def monthlyPayment (P annual : ℚ) (n : ℕ) : ℚ :=
  round2 (monthlyPaymentExact P annual n)

/-- One repayment installment as produced by the Schedule Generator. -/
structure Installment where
  sequence_index : ℕ
  due_date : ℤ
  amount_due : ℚ
deriving DecidableEq, Repr

inductive LifecycleError where
  | InvalidLoanTerms
  | DuplicateAuthorization
  | AmountOutOfRange
  | AuthorizationNotReady
  | NotFound
  | InvalidState
  | ExternalCaptureFailed
deriving DecidableEq, Repr

/-- Modelled from the spec: the rows of the amortization schedule
(`generateSchedule` is server-side and absent from this repository).
Installment `i` (1-indexed) is due `i` months after `created_at` (months
modelled as integer ticks) and owes the rounded monthly payment `m`; the
final installment is the schedule total minus the sum of the prior
installments, where §4.1 fixes the schedule total: "the schedule's sum
exactly equals `m * duration_months`". -/
def scheduleRows (P annual : ℚ) (n : ℕ) (created_at : ℤ) : List Installment :=
  let m := monthlyPayment P annual n
  (List.range n).map (fun i =>
    { sequence_index := i + 1
      due_date := created_at + (i : ℤ) + 1
      amount_due := if i + 1 = n then m * n - m * ((n - 1 : ℕ) : ℚ) else m })

/-- Modelled from the spec: `generateSchedule(loan)` (§4.1), which is
server-side and absent from this repository.  Rejects with
`InvalidLoanTerms` when `principal ≤ 0`, `duration < 1` or `rate < 0`,
otherwise produces the `duration` rows of `scheduleRows`. -/
def generateSchedule (P annual : ℚ) (n : ℕ) (created_at : ℤ) :
    Except LifecycleError (List Installment) :=
  if 0 < P ∧ 1 ≤ n ∧ 0 ≤ annual then .ok (scheduleRows P annual n created_at)
  else .error .InvalidLoanTerms

/- ---------------- Installment Status Reconciler ---------------- -/

inductive RepaymentStatus where
  | Due
  | PartiallyPaid
  | Paid
  | Late
deriving DecidableEq, Repr

/-- A repayment (installment) record as carried through the lifecycle. -/
structure Repayment where
  amount_due : ℚ
  amount_paid : ℚ
  due_date : ℤ
  status : RepaymentStatus
  receipt_reference : Option ℕ
deriving DecidableEq, Repr

/-- Modelled from the spec: the Installment Status Reconciler (§4.4), which
is server-side and absent from this repository.  Precedence order: Paid
when `amount_paid ≥ amount_due`; else PartiallyPaid when `amount_paid > 0`;
else Late when `due_date < now`; else Due. -/
def reconcile (r : Repayment) (now : ℤ) : RepaymentStatus :=
  if r.amount_due ≤ r.amount_paid then .Paid
  else if 0 < r.amount_paid then .PartiallyPaid
  else if r.due_date < now then .Late
  else .Due

/-- Store the reconciled status back on the repayment (the write path of
§4.4). -/
def applyReconcile (r : Repayment) (now : ℤ) : Repayment :=
  { r with status := reconcile r now }

/- ---------------- Payment Authorization lifecycle ---------------- -/

/-- Lifecycle states of a Payment Authorization.  `Pending` is the
intermediate record created by the borrower's intent call and turned into
`Authorized` by the `confirm` call of §4.2 ("transitions a pending record
to `Authorized`"); the design document's own status set lists
`Authorized`, `Captured`, `Canceled`. -/
inductive AuthStatus where
  | Pending
  | Authorized
  | Captured
  | Canceled
deriving DecidableEq, Repr

/-- A Pending or Authorized record is "active": it is the outstanding
authorization attempt that, by §3's at-most-one invariant and §5's atomic
check-and-create, blocks a second `authorize` on the same repayment. -/
def AuthStatus.isActive : AuthStatus → Bool
  | .Pending => true
  | .Authorized => true
  | .Captured => false
  | .Canceled => false

structure PaymentAuthorization where
  id : ℕ
  amount : ℚ
  status : AuthStatus
  external_reference : ℕ
deriving DecidableEq, Repr

/-- The per-repayment lifecycle state: the repayment row together with all
Payment Authorization records ever created for it (§3: a repayment "may
accumulate a history of Canceled/Captured ones").  Operations on different
repayments are independent (§5), so one repayment's state suffices. -/
structure RepaymentState where
  rep : Repayment
  auths : List PaymentAuthorization
deriving DecidableEq, Repr

def remaining (r : Repayment) : ℚ := r.amount_due - r.amount_paid

/-- Modelled from the spec: `authorize(repayment, requestedAmount)` (§4.2),
which is server-side and absent from this repository (the client wrapper is
`createStripeIntent` in `src/trustedge-frontend/src/api/loans.js`).
The duplicate check and the record creation are one atomic step (§5);
`requestedAmount` defaults to the remaining balance when absent or ≤ 0,
and must otherwise lie in `(0, remaining]`.  The §4.2 precondition
`repayment.status ≠ Paid` is subsumed by the range check, since a Paid
repayment has non-positive remaining balance.  `freshId` is the new row id
and `fresh_ref` the external reference obtained from the card collaborator. -/
def requestedOrRemaining (rem : ℚ) : Option ℚ → ℚ
  | none => rem
  | some q => if q ≤ 0 then rem else q

def authorize (s : RepaymentState) (requestedAmount : Option ℚ)
    (freshId fresh_ref : ℕ) : Except LifecycleError RepaymentState :=
  if s.auths.any (fun a => a.status.isActive) then
    .error .DuplicateAuthorization
  else if 0 < requestedOrRemaining (remaining s.rep) requestedAmount ∧
      requestedOrRemaining (remaining s.rep) requestedAmount ≤ remaining s.rep then
    .ok { s with auths := s.auths ++
      [⟨freshId, requestedOrRemaining (remaining s.rep) requestedAmount,
        .Pending, fresh_ref⟩] }
  else
    .error .AmountOutOfRange

/-- The Bool test "this record is the pending one bound to `ref`". -/
def pendingWith (ref : ℕ) (a : PaymentAuthorization) : Bool :=
  a.external_reference == ref && decide (a.status = .Pending)

/-- The Bool test "this record has row id `paId`". -/
def hasId (paId : ℕ) (b : PaymentAuthorization) : Bool := b.id == paId

/-- Mark the pending record bound to `ref` as Authorized. -/
def markAuthorized (ref : ℕ) (a : PaymentAuthorization) : PaymentAuthorization :=
  if a.external_reference = ref ∧ a.status = .Pending then { a with status := .Authorized }
  else a

/-- Modelled from the spec: `confirm(external_reference)` (§4.2), which is
server-side and absent from this repository (the client wrapper is
`confirmStripeAuthorization` in `src/trustedge-frontend/src/api/loans.js`;
`cardStatus` is the status the external card collaborator reports, compared
against the "requires_capture" literal of PaymentDialog.jsx).  A pending
record becomes `Authorized` only when the card collaborator reports
"requires_capture"; any other reported status fails with
`AuthorizationNotReady` and confirms nothing. -/
def confirm (s : RepaymentState) (ref : ℕ) (cardStatus : String) :
    Except LifecycleError RepaymentState :=
  if cardStatus = "requires_capture" then
    match s.auths.find? (pendingWith ref) with
    | none => .error .NotFound
    | some _ => .ok { s with auths := s.auths.map (markAuthorized ref) }
  else .error .AuthorizationNotReady

/-- Mark the Authorized record `paId` as Captured. -/
def markCaptured (paId : ℕ) (b : PaymentAuthorization) : PaymentAuthorization :=
  if b.id = paId ∧ b.status = .Authorized then { b with status := .Captured }
  else b

/-- Mark the Authorized record `paId` as Canceled. -/
def markCanceled (paId : ℕ) (b : PaymentAuthorization) : PaymentAuthorization :=
  if b.id = paId ∧ b.status = .Authorized then { b with status := .Canceled }
  else b

/-- Modelled from the spec: `capture(paymentAuthorizationId)` (§4.3), which
is server-side and absent from this repository (the client wrapper is
`approvePayment` in `src/trustedge-frontend/src/api/loans.js`).
`externalOk` is the outcome of the external card capture; `rcpt` the
receipt reference produced by the Receipt Emitter.  On success the record
becomes `Captured`, `amount_paid` grows by the captured amount, the
repayment status is reconciled, and the new status and receipt reference
are returned. -/
def capture (s : RepaymentState) (paId : ℕ) (now : ℤ) (rcpt : ℕ)
    (externalOk : Bool) :
    Except LifecycleError (RepaymentState × RepaymentStatus × ℕ) :=
  match s.auths.find? (hasId paId) with
  | none => .error .NotFound
  | some a =>
    if a.status = .Authorized then
      if externalOk then
        let paid := s.rep.amount_paid + a.amount
        let st := reconcile { s.rep with amount_paid := paid } now
        let rep2 : Repayment :=
          { s.rep with amount_paid := paid, status := st, receipt_reference := some rcpt }
        .ok (⟨rep2, s.auths.map (markCaptured paId)⟩, st, rcpt)
      else .error .ExternalCaptureFailed
    else .error .InvalidState

/-- Modelled from the spec: `cancel(paymentAuthorizationId)` (§4.3), which
is server-side and absent from this repository (the client wrapper is
`cancelPayment` in `src/trustedge-frontend/src/api/loans.js`).  Identical
preconditions to `capture`; voids the held funds and marks the record
`Canceled`; never touches `amount_paid`. -/
def cancel (s : RepaymentState) (paId : ℕ) (externalOk : Bool) :
    Except LifecycleError RepaymentState :=
  match s.auths.find? (hasId paId) with
  | none => .error .NotFound
  | some a =>
    if a.status = .Authorized then
      if externalOk then
        .ok { s with auths := s.auths.map (markCanceled paId) }
      else .error .ExternalCaptureFailed
    else .error .InvalidState

/-- The four lifecycle operations, as one alphabet for temporal statements. -/
inductive Op where
  | authorize (requestedAmount : Option ℚ) (freshId fresh_ref : ℕ)
  | confirm (ref : ℕ) (cardStatus : String)
  | capture (paId : ℕ) (now : ℤ) (rcpt : ℕ) (externalOk : Bool)
  | cancel (paId : ℕ) (externalOk : Bool)

/-- One lifecycle transition (state view of each operation). -/
def step (s : RepaymentState) : Op → Except LifecycleError RepaymentState
  | .authorize ra fid ref => authorize s ra fid ref
  | .confirm ref cs => confirm s ref cs
  | .capture paId now rcpt extOk => (capture s paId now rcpt extOk).map Prod.fst
  | .cancel paId extOk => cancel s paId extOk

/-- Run one operation; a failed operation leaves the state unchanged (§7:
failures never advance Payment Authorization or Repayment state). -/
def runOp (s : RepaymentState) (op : Op) : RepaymentState :=
  match step s op with
  | .ok s' => s'
  | .error _ => s

def runOps (s : RepaymentState) (ops : List Op) : RepaymentState :=
  ops.foldl runOp s

/-- Number of records currently in status `Authorized`. -/
def authorizedCount (s : RepaymentState) : ℕ :=
  (s.auths.filter (fun a => a.status = .Authorized)).length

/-- Number of active (Pending or Authorized) records. -/
def activeCount (s : RepaymentState) : ℕ :=
  (s.auths.filter (fun a => a.status.isActive)).length

/- ---------------- HTTP client helpers (src/trustedge-frontend/src/api) -/

/-- An axios-style request failure: `status` is `e.response?.status`
(`none` models an error without a response, e.g. a network error),
`detail` the message `handleError` extracts from the response body, and
`message` the plain `err.message`. -/
structure HttpError where
  status : Option ℕ
  detail : String
  message : String
deriving DecidableEq, Repr

/-- Outcome of one HTTP request: the response data or an error. -/
inductive HttpOutcome (α : Type) where
  | ok (data : α)
  | err (e : HttpError)
deriving DecidableEq

/-- From `src/trustedge-frontend/src/api/client.js`: the message of the
Error thrown by `handleError` — the response-derived message when a
response is present, else `err.message` or "Network error". -/
def handleError (e : HttpError) : String :=
  match e.status with
  | some _ => e.detail
  | none => if e.message = "" then "Network error" else e.message

/-- Result of an API-client call: returned data, an Error thrown via
`handleError`, or a raw error propagating out of an uncaught inner request. -/
inductive CallResult (α : Type) where
  | ok (data : α)
  | thrown (msg : String)
  | thrownRaw (e : HttpError)
deriving DecidableEq

/-- From `src/trustedge-frontend/src/api/loans.js` lines 6-17
(`getWithFallback`): issue the primary GET; when it fails with HTTP 404 and
a fallback path was supplied, issue the fallback GET and return its data
(its own failure propagates raw); any other failure goes to `handleError`.
`net` is the ambient network; the second component is the list of paths
requested, in order. -/
def getWithFallback {α : Type} (net : String → HttpOutcome α)
    (primary : String) (fallback : Option String) : CallResult α × List String :=
  match net primary with
  | .ok d => (.ok d, [primary])
  | .err e =>
    match fallback with
    | some fb =>
      if e.status = some 404 then
        match net fb with
        | .ok d => (.ok d, [primary, fb])
        | .err e2 => (.thrownRaw e2, [primary, fb])
      else (.thrown (handleError e), [primary])
    | none => (.thrown (handleError e), [primary])

/-- From `src/trustedge-frontend/src/api/loans.js` lines 19-30
(`postWithFallback`): same shape as `getWithFallback` for POST; the same
`body` is sent to the primary and to the fallback. -/
def postWithFallback {α β : Type} (net : String → β → HttpOutcome α)
    (primary : String) (fallback : Option String) (body : β) :
    CallResult α × List String :=
  match net primary body with
  | .ok d => (.ok d, [primary])
  | .err e =>
    match fallback with
    | some fb =>
      if e.status = some 404 then
        match net fb body with
        | .ok d => (.ok d, [primary, fb])
        | .err e2 => (.thrownRaw e2, [primary, fb])
      else (.thrown (handleError e), [primary])
    | none => (.thrown (handleError e), [primary])

/- ---------------- deprecated direct-pay (loans.js lines 191-195) ------- -/

/-- The message of the Error unconditionally thrown by `payInstallment`. -/
def payInstallmentMessage : String :=
  "payInstallment() is deprecated. Use createStripeIntent() + confirmAuthorization(), then have an officer approve."

/-- From `src/trustedge-frontend/src/api/loans.js` lines 191-195:
`payInstallment()` ignores its arguments, issues no HTTP request, and
throws the deprecation Error. -/
def payInstallment {α : Type} (_args : List ℚ) : CallResult α × List String :=
  (.thrown payInstallmentMessage, [])

/-- What the "Pay now" handler of LoanRepayments observably does. -/
inductive PayOutcome where
  | alerted (msg : String)
  | reloaded
deriving DecidableEq, Repr

/-- From `src/unnamed/part_008` lines 34-42 (`LoanRepayments.pay`): call
`payInstallment(loanId, r.id)`; on success reload the schedule, on a thrown
error alert its message. -/
def loanRepaymentsPay (loanId rid : ℚ) : PayOutcome × List String :=
  match payInstallment (α := Unit) [loanId, rid] with
  | (.ok _, reqs) => (.reloaded, reqs)
  | (.thrown m, reqs) => (.alerted m, reqs)
  | (.thrownRaw e, reqs) => (.alerted e.message, reqs)

/- ---------------- createStripeIntent argument mismatch ---------------- -/

/-- A fragment of the JavaScript value universe, enough to model what
arrives in `createStripeIntent`'s third parameter slot. -/
inductive JsValue where
  | undef
  | num (q : ℚ)
  | str (s : String)
  | obj (amount currency : JsValue)
deriving DecidableEq, Repr

/-- JavaScript destructuring `{ amount, currency } = v` (with `= {}`
default): field access on an object yields the field; on a number or a
string it yields `undefined`; an absent argument takes the `{}` default,
whose fields are also `undefined`. -/
def destructureOpts : JsValue → JsValue × JsValue
  | .obj a c => (a, c)
  | _ => (.undef, .undef)

/-- The request shape `createStripeIntent` hands to `postWithFallback`:
both route candidates plus the `amount`/`currency` query params. -/
structure StripeIntentRequest where
  primary : String
  fallback : String
  amount : JsValue
  currency : JsValue
deriving DecidableEq, Repr

/-- From `src/trustedge-frontend/src/api/loans.js` lines 122-128:
`createStripeIntent(loanId, repaymentId, { amount, currency } = {})`
destructures its third parameter and sends `amount`/`currency` as query
params to the repayment's stripe/intent route (with the double-prefix
fallback route). -/
def createStripeIntent (loanId repaymentId : ℕ) (third : JsValue) :
    StripeIntentRequest :=
  let ac := destructureOpts third
  { primary := "/loans/" ++ toString loanId ++ "/repayments/"
      ++ toString repaymentId ++ "/stripe/intent"
    fallback := "/loans/loans/" ++ toString loanId ++ "/repayments/"
      ++ toString repaymentId ++ "/stripe/intent"
    amount := ac.1
    currency := ac.2 }

/-- From `src/trustedge-frontend/src/components/PaymentDialog.jsx` lines
17-23 (`submit`): compute `payAmt` (the typed amount when `> 0`, else the
remaining balance) and call `createStripeIntent(loan.id, repayment.id,
payAmt, "usd")` — `payAmt` is a number in the third (options) slot and the
fourth argument is dropped, the function having only three parameters. -/
def paymentDialogSubmitIntent (loanId repaymentId : ℕ)
    (typedAmount amount_due amount_paid : ℚ) : StripeIntentRequest :=
  let rem := amount_due - amount_paid
  let payAmt := if 0 < typedAmount then typedAmount else rem
  createStripeIntent loanId repaymentId (.num payAmt)

/- ---------------- concrete fixtures ---------------- -/

/-- A fresh installment owing 1000.00 with nothing paid. -/
def rep1000 : Repayment :=
  { amount_due := 1000, amount_paid := 0, due_date := 20240101,
    status := .Due, receipt_reference := none }

def s1000 : RepaymentState := ⟨rep1000, []⟩

def sPending : RepaymentState := ⟨rep1000, [⟨1, 1000, .Pending, 11⟩]⟩

def sAuthorized : RepaymentState := ⟨rep1000, [⟨1, 1000, .Authorized, 11⟩]⟩

/-- `rep1000` after a successful 1000.00 capture with receipt 77. -/
def repPaid1000 : Repayment :=
  { amount_due := 1000, amount_paid := 1000, due_date := 20240101,
    status := .Paid, receipt_reference := some 77 }

def sCaptured : RepaymentState := ⟨repPaid1000, [⟨1, 1000, .Captured, 11⟩]⟩

/-- The installment of the §8 Late scenario. -/
def repLate : Repayment :=
  { amount_due := 500, amount_paid := 0, due_date := 20240101,
    status := .Due, receipt_reference := none }

/-- A network responding 404 on the path "/p" and data 7 elsewhere. -/
def net404 : String → HttpOutcome ℕ := fun p =>
  if p = "/p" then .err ⟨some 404, "not found", "e404"⟩ else .ok 7

/-- The same for POST (body ignored). -/
def netPost404 : String → Option ℕ → HttpOutcome ℕ := fun p _ =>
  if p = "/p" then .err ⟨some 404, "not found", "e404"⟩ else .ok 9

/- ==================== theorems ==================== -/

/-- C4: the Installment Status Reconciler decides exactly one status, in
the precedence order Paid / PartiallyPaid / Late / Due; the 2024 Late
scenario of §8 holds; and reconciling is idempotent without an intervening
state change. -/
theorem C4_reconcile_precedence_late_scenario_idempotent :
    ∀ (r : Repayment) (now : ℤ),
    (reconcile r now = .Paid ↔ r.amount_due ≤ r.amount_paid) ∧
    (reconcile r now = .PartiallyPaid ↔
      r.amount_paid < r.amount_due ∧ 0 < r.amount_paid) ∧
    (reconcile r now = .Late ↔
      r.amount_paid < r.amount_due ∧ r.amount_paid ≤ 0 ∧ r.due_date < now) ∧
    (reconcile r now = .Due ↔
      r.amount_paid < r.amount_due ∧ r.amount_paid ≤ 0 ∧ now ≤ r.due_date) ∧
    applyReconcile (applyReconcile r now) now = applyReconcile r now ∧
    reconcile repLate 20240601 = .Late := by
  intro r now
  refine ⟨?_, ?_, ?_, ?_, rfl, by decide⟩ <;>
    · simp only [reconcile]
      split_ifs <;> simp_all

/-- C9: `payInstallment` throws the deprecation Error without issuing any
HTTP request, for every argument list; hence the "Pay now" handler of
LoanRepayments always alerts the deprecation message and never completes a
payment. -/
theorem C9_payInstallment_always_throws :
    ∀ (α : Type) (args : List ℚ) (loanId rid : ℚ),
    payInstallment (α := α) args = (.thrown payInstallmentMessage, []) ∧
    loanRepaymentsPay loanId rid = (.alerted payInstallmentMessage, []) ∧
    (loanRepaymentsPay loanId rid).1 ≠ .reloaded := by
  intro α args loanId rid
  exact ⟨rfl, rfl, by simp [loanRepaymentsPay, payInstallment]⟩

/-- C10: whatever amount the user types, the `amount` and `currency` query
params sent by `createStripeIntent` from the payment dialog are
`undefined`, because a number sits in the destructured options slot;
passing a genuine options object would forward both fields. -/
theorem C10_stripe_intent_params_undefined :
    ∀ (loanId repaymentId : ℕ) (typed due paid : ℚ),
    (paymentDialogSubmitIntent loanId repaymentId typed due paid).amount = .undef ∧
    (paymentDialogSubmitIntent loanId repaymentId typed due paid).currency = .undef ∧
    (∀ a c : JsValue,
      (createStripeIntent loanId repaymentId (.obj a c)).amount = a ∧
      (createStripeIntent loanId repaymentId (.obj a c)).currency = c) := by
  intro loanId repaymentId typed due paid
  exact ⟨rfl, rfl, fun a c => ⟨rfl, rfl⟩⟩

/-- C8: both fallback helpers issue the primary request first; the
fallback path is requested exactly when the primary failed with HTTP 404
and a fallback was supplied, and then the fallback response's data is
returned; any other primary failure makes no fallback request and is
rethrown via `handleError`. -/
theorem C8_fallback_routing :
    ∀ (α β : Type) (net : String → HttpOutcome α)
      (netPost : String → β → HttpOutcome α)
      (primary fb : String) (fallback : Option String) (body : β),
    (∀ d, net primary = .ok d →
      getWithFallback net primary fallback = (.ok d, [primary])) ∧
    (∀ e, net primary = .err e → e.status ≠ some 404 →
      getWithFallback net primary fallback = (.thrown (handleError e), [primary])) ∧
    (∀ e, net primary = .err e →
      getWithFallback net primary none = (.thrown (handleError e), [primary])) ∧
    (∀ e d, net primary = .err e → e.status = some 404 → net fb = .ok d →
      getWithFallback net primary (some fb) = (.ok d, [primary, fb])) ∧
    (∀ e e2, net primary = .err e → e.status = some 404 → net fb = .err e2 →
      getWithFallback net primary (some fb) = (.thrownRaw e2, [primary, fb])) ∧
    (getWithFallback net primary fallback).2.head? = some primary ∧
    (∀ d, netPost primary body = .ok d →
      postWithFallback netPost primary fallback body = (.ok d, [primary])) ∧
    (∀ e, netPost primary body = .err e → e.status ≠ some 404 →
      postWithFallback netPost primary fallback body =
        (.thrown (handleError e), [primary])) ∧
    (∀ e, netPost primary body = .err e →
      postWithFallback netPost primary none body =
        (.thrown (handleError e), [primary])) ∧
    (∀ e d, netPost primary body = .err e → e.status = some 404 →
      netPost fb body = .ok d →
      postWithFallback netPost primary (some fb) body = (.ok d, [primary, fb])) ∧
    (∀ e e2, netPost primary body = .err e → e.status = some 404 →
      netPost fb body = .err e2 →
      postWithFallback netPost primary (some fb) body =
        (.thrownRaw e2, [primary, fb])) ∧
    (postWithFallback netPost primary fallback body).2.head? = some primary := by
  intro α β net netPost primary fb fallback body
  refine ⟨?_, ?_, ?_, ?_, ?_, ?_, ?_, ?_, ?_, ?_, ?_, ?_⟩
  · intro d h; simp [getWithFallback, h]
  · intro e h hne
    cases fallback with
    | none => simp [getWithFallback, h]
    | some fb2 => simp [getWithFallback, h, hne]
  · intro e h; simp [getWithFallback, h]
  · intro e d h h404 hfb; simp [getWithFallback, h, h404, hfb]
  · intro e e2 h h404 hfb; simp [getWithFallback, h, h404, hfb]
  · cases h : net primary with
    | ok d => simp [getWithFallback, h]
    | err e =>
      cases fallback with
      | none => simp [getWithFallback, h]
      | some fb2 =>
        by_cases h404 : e.status = some 404
        · cases hfb : net fb2 with
          | ok d => simp [getWithFallback, h, h404, hfb]
          | err e2 => simp [getWithFallback, h, h404, hfb]
        · simp [getWithFallback, h, h404]
  · intro d h; simp [postWithFallback, h]
  · intro e h hne
    cases fallback with
    | none => simp [postWithFallback, h]
    | some fb2 => simp [postWithFallback, h, hne]
  · intro e h; simp [postWithFallback, h]
  · intro e d h h404 hfb; simp [postWithFallback, h, h404, hfb]
  · intro e e2 h h404 hfb; simp [postWithFallback, h, h404, hfb]
  · cases h : netPost primary body with
    | ok d => simp [postWithFallback, h]
    | err e =>
      cases fallback with
      | none => simp [postWithFallback, h]
      | some fb2 =>
        by_cases h404 : e.status = some 404
        · cases hfb : netPost fb2 body with
          | ok d => simp [postWithFallback, h, h404, hfb]
          | err e2 => simp [postWithFallback, h, h404, hfb]
        · simp [postWithFallback, h, h404]

/-- C8 witness: on the concrete `net404` network, the primary "/p" fails
with 404 and the fallback "/q" returns 7, so `getWithFallback` requests
both paths in order and returns 7. -/
theorem C8_fallback_routing_witness :
    net404 "/p" = .err ⟨some 404, "not found", "e404"⟩ ∧
    (⟨some 404, "not found", "e404"⟩ : HttpError).status = some 404 ∧
    net404 "/q" = .ok 7 ∧
    getWithFallback net404 "/p" (some "/q") = (.ok 7, ["/p", "/q"]) := by
  refine ⟨by decide, rfl, by decide, ?_⟩
  exact (C8_fallback_routing ℕ (Option ℕ) net404 netPost404 "/p" "/q"
    (some "/q") none).2.2.2.1 ⟨some 404, "not found", "e404"⟩ 7 (by decide) rfl
    (by decide)

/-- Filtering a mapped list counts the elements whose image satisfies the
predicate. -/
theorem filter_length_map {α : Type} (f : α → α) (p : α → Bool) (l : List α) :
    ((l.map f).filter p).length = (l.filter (fun a => p (f a))).length := by
  induction l with
  | nil => rfl
  | cons a t ih => cases h : p (f a) <;> simp [List.filter_cons, h, ih]

/-- A pointwise-weaker predicate filters to a list at most as long. -/
theorem filter_length_mono {α : Type} (p q : α → Bool) (l : List α)
    (h : ∀ a ∈ l, p a = true → q a = true) :
    (l.filter p).length ≤ (l.filter q).length := by
  induction l with
  | nil => exact le_refl _
  | cons a t ih =>
    have ht : ∀ b ∈ t, p b = true → q b = true := fun b hb => h b (by simp [hb])
    cases hp : p a with
    | false =>
      cases hq : q a with
      | false => simpa [List.filter_cons, hp, hq] using ih ht
      | true =>
        simp only [List.filter_cons, hp, hq, if_true, if_false, List.length_cons]
        exact le_trans (ih ht) (Nat.le_succ _)
    | true =>
      have hq : q a = true := h a (by simp) hp
      simpa [List.filter_cons, hp, hq] using ih ht

/-- Pointwise-equal predicates filter to lists of the same length. -/
theorem filter_length_congr {α : Type} (p q : α → Bool) (l : List α)
    (h : ∀ a ∈ l, p a = q a) :
    (l.filter p).length = (l.filter q).length := by
  induction l with
  | nil => rfl
  | cons a t ih =>
    have ht : ∀ b ∈ t, p b = q b := fun b hb => h b (by simp [hb])
    have ha : p a = q a := h a (by simp)
    rw [List.filter_cons, List.filter_cons, ha]
    cases hq : q a <;> simp [hq, ih ht]

/-- A predicate with no witness filters to the empty list. -/
theorem filter_nil_of_any_false {α : Type} (p : α → Bool) (l : List α)
    (h : l.any p = false) : l.filter p = [] := by
  induction l with
  | nil => rfl
  | cons a t ih =>
    simp only [List.any_cons, Bool.or_eq_false_iff] at h
    simp [List.filter_cons, h.1, ih h.2]

/-- `markAuthorized` never changes whether a record is active. -/
theorem isActive_markAuthorized (ref : ℕ) (a : PaymentAuthorization) :
    (markAuthorized ref a).status.isActive = a.status.isActive := by
  unfold markAuthorized
  split_ifs with h
  · rw [h.2]; rfl
  · rfl

/-- `markCaptured` only deactivates records. -/
theorem isActive_markCaptured (paId : ℕ) (b : PaymentAuthorization) :
    (markCaptured paId b).status.isActive = true → b.status.isActive = true := by
  unfold markCaptured
  split_ifs with h
  · intro hc; cases hc
  · exact id

/-- `markCanceled` only deactivates records. -/
theorem isActive_markCanceled (paId : ℕ) (b : PaymentAuthorization) :
    (markCanceled paId b).status.isActive = true → b.status.isActive = true := by
  unfold markCanceled
  split_ifs with h
  · intro hc; cases hc
  · exact id

/-- Every successful lifecycle step keeps the number of active (Pending or
Authorized) records at most one. -/
theorem activeCount_le_one_step {s s' : RepaymentState} {op : Op}
    (h : step s op = .ok s') (hs : activeCount s ≤ 1) : activeCount s' ≤ 1 := by
  cases op with
  | authorize ra fid ref =>
    replace h : authorize s ra fid ref = Except.ok s' := h
    unfold authorize at h
    split at h
    · exact absurd h (by simp)
    · next hany =>
      split at h
      · cases h
        have hfalse : s.auths.any (fun a => a.status.isActive) = false := by
          simpa using hany
        have hnil : s.auths.filter (fun a => a.status.isActive) = [] :=
          filter_nil_of_any_false _ _ hfalse
        unfold activeCount
        dsimp only
        rw [List.filter_append, hnil]
        simp [List.filter_cons, AuthStatus.isActive]
      · exact absurd h (by simp)
  | confirm ref cs =>
    replace h : confirm s ref cs = Except.ok s' := h
    unfold confirm at h
    split at h
    · split at h
      · exact absurd h (by simp)
      · cases h
        have heq : activeCount
            { s with auths := s.auths.map (markAuthorized ref) } =
            activeCount s := by
          unfold activeCount
          rw [filter_length_map]
          exact filter_length_congr _ _ _
            (fun a _ => isActive_markAuthorized ref a)
        rw [heq]; exact hs
    · exact absurd h (by simp)
  | capture paId now rcpt extOk =>
    replace h : Except.map Prod.fst (capture s paId now rcpt extOk) =
        Except.ok s' := h
    cases hcap : capture s paId now rcpt extOk with
    | error e => rw [hcap] at h; exact absurd h (by simp [Except.map])
    | ok x =>
      rw [hcap] at h
      simp only [Except.map] at h
      cases h
      unfold capture at hcap
      split at hcap
      · exact absurd hcap (by simp)
      · split at hcap
        · split at hcap
          · cases hcap
            refine le_trans ?_ hs
            unfold activeCount
            rw [filter_length_map]
            exact filter_length_mono _ _ _
              (fun b _ => isActive_markCaptured paId b)
          · exact absurd hcap (by simp)
        · exact absurd hcap (by simp)
  | cancel paId extOk =>
    replace h : cancel s paId extOk = Except.ok s' := h
    unfold cancel at h
    split at h
    · exact absurd h (by simp)
    · split at h
      · split at h
        · cases h
          refine le_trans ?_ hs
          unfold activeCount
          rw [filter_length_map]
          exact filter_length_mono _ _ _
            (fun b _ => isActive_markCanceled paId b)
        · exact absurd h (by simp)
      · exact absurd h (by simp)

/-- `runOp` (which keeps the old state on failure) preserves the bound. -/
theorem activeCount_le_one_runOp (s : RepaymentState) (op : Op)
    (hs : activeCount s ≤ 1) : activeCount (runOp s op) ≤ 1 := by
  unfold runOp
  cases hstep : step s op with
  | ok s' => exact activeCount_le_one_step hstep hs
  | error e => exact hs

/-- The bound is preserved along any operation sequence. -/
theorem activeCount_le_one_runOps (ops : List Op) :
    ∀ s : RepaymentState, activeCount s ≤ 1 → activeCount (runOps s ops) ≤ 1 := by
  induction ops with
  | nil => exact fun s hs => hs
  | cons op rest ih =>
    intro s hs
    exact ih (runOp s op) (activeCount_le_one_runOp s op hs)

/-- Authorized records are active, so their count is bounded by the active
count. -/
theorem authorizedCount_le_activeCount (s : RepaymentState) :
    authorizedCount s ≤ activeCount s := by
  unfold authorizedCount activeCount
  refine filter_length_mono _ _ _ (fun a _ h => ?_)
  simp only [decide_eq_true_eq] at h
  rw [h]; rfl

/-- C6: with no active authorization in the way, `authorize` defaults an
absent or non-positive requested amount to the remaining balance, accepts
exactly the amounts in `(0, remaining]`, and rejects anything above the
remaining balance — in particular one cent over — with `AmountOutOfRange`. -/
theorem C6_authorize_amount_validation :
    ∀ (s : RepaymentState) (fid ref : ℕ),
    s.auths.any (fun a => a.status.isActive) = false →
    (0 < remaining s.rep →
      authorize s none fid ref =
        .ok { s with auths := s.auths ++ [⟨fid, remaining s.rep, .Pending, ref⟩] }) ∧
    (∀ q, q ≤ 0 → authorize s (some q) fid ref = authorize s none fid ref) ∧
    (∀ q, 0 < q → q ≤ remaining s.rep →
      authorize s (some q) fid ref =
        .ok { s with auths := s.auths ++ [⟨fid, q, .Pending, ref⟩] }) ∧
    (∀ q, 0 < q → remaining s.rep < q →
      authorize s (some q) fid ref = .error .AmountOutOfRange) ∧
    (authorize s (some (remaining s.rep + 1 / 100)) fid ref =
      .error .AmountOutOfRange) := by
  intro s fid ref hq
  refine ⟨?_, ?_, ?_, ?_, ?_⟩
  · intro hrem
    simp only [authorize, hq, Bool.false_eq_true, if_false, requestedOrRemaining]
    rw [if_pos ⟨hrem, le_refl _⟩]
  · intro q hq0
    simp only [authorize, hq, Bool.false_eq_true, if_false, requestedOrRemaining,
      if_pos hq0]
  · intro q h0 hle
    simp only [authorize, hq, Bool.false_eq_true, if_false, requestedOrRemaining,
      if_neg (not_le.mpr h0)]
    rw [if_pos ⟨h0, hle⟩]
  · intro q h0 hgt
    simp only [authorize, hq, Bool.false_eq_true, if_false, requestedOrRemaining,
      if_neg (not_le.mpr h0)]
    rw [if_neg]
    rintro ⟨-, hle⟩
    exact absurd hgt (not_lt.mpr hle)
  · by_cases hc : remaining s.rep + 1 / 100 ≤ 0
    · simp only [authorize, hq, Bool.false_eq_true, if_false, requestedOrRemaining,
        if_pos hc]
      rw [if_neg]
      rintro ⟨h0, -⟩
      linarith
    · simp only [authorize, hq, Bool.false_eq_true, if_false, requestedOrRemaining,
        if_neg hc]
      rw [if_neg]
      rintro ⟨-, hle⟩
      linarith

/-- C6 witness: on the fresh 1000.00 installment (no active
authorization), requesting 1000.01 is rejected with `AmountOutOfRange`. -/
theorem C6_authorize_amount_validation_witness :
    (s1000.auths.any (fun a => a.status.isActive) = false) ∧
    remaining s1000.rep = 1000 ∧
    authorize s1000 (some (remaining s1000.rep + 1 / 100)) 1 11 =
      .error .AmountOutOfRange :=
  ⟨by decide, by norm_num [remaining, s1000, rep1000],
    (C6_authorize_amount_validation s1000 1 11 (by decide)).2.2.2.2⟩

/-- C7: `confirm` authorizes a pending record exactly when the external
card collaborator reports "requires_capture": any other reported status
fails with `AuthorizationNotReady`; with no matching pending record it
fails with `NotFound`; and success turns precisely the matching pending
records into `Authorized`, touching nothing else. -/
theorem C7_confirm_requires_capture :
    ∀ (s : RepaymentState) (ref : ℕ) (cs : String),
    (cs ≠ "requires_capture" → confirm s ref cs = .error .AuthorizationNotReady) ∧
    (∀ s', confirm s ref cs = .ok s' →
      cs = "requires_capture" ∧
      s'.rep = s.rep ∧
      s'.auths = s.auths.map (markAuthorized ref) ∧
      ∃ a ∈ s.auths, a.external_reference = ref ∧ a.status = .Pending) ∧
    ((∀ a ∈ s.auths, ¬(a.external_reference = ref ∧ a.status = .Pending)) →
      cs = "requires_capture" → confirm s ref cs = .error .NotFound) ∧
    ((∃ a ∈ s.auths, a.external_reference = ref ∧ a.status = .Pending) →
      cs = "requires_capture" →
      confirm s ref cs = .ok { s with auths := s.auths.map (markAuthorized ref) }) ∧
    (∀ a, a.external_reference = ref → a.status = .Pending →
      markAuthorized ref a = { a with status := .Authorized }) := by
  intro s ref cs
  refine ⟨?_, ?_, ?_, ?_, ?_⟩
  · intro hne; simp [confirm, hne]
  · intro s' h
    by_cases hcs : cs = "requires_capture"
    · subst hcs
      simp only [confirm, if_pos rfl] at h
      cases hf : s.auths.find? (pendingWith ref) with
      | none => rw [hf] at h; exact absurd h (by simp)
      | some a =>
        rw [hf] at h
        have ha := List.mem_of_find?_eq_some hf
        have hpa := List.find?_some hf
        simp only [pendingWith, Bool.and_eq_true, beq_iff_eq,
          decide_eq_true_eq] at hpa
        cases h
        exact ⟨rfl, rfl, rfl, a, ha, hpa⟩
    · simp [confirm, hcs] at h
  · intro hnone hcs
    subst hcs
    have hf : s.auths.find? (pendingWith ref) = none := by
      rw [List.find?_eq_none]
      intro a ha
      simp only [pendingWith, Bool.and_eq_true, beq_iff_eq, decide_eq_true_eq]
      exact hnone a ha
    simp [confirm, hf]
  · rintro ⟨a, ha, hp⟩ hcs
    subst hcs
    cases hf : s.auths.find? (pendingWith ref) with
    | none =>
      rw [List.find?_eq_none] at hf
      have := hf a ha
      simp only [pendingWith, Bool.and_eq_true, beq_iff_eq,
        decide_eq_true_eq] at this
      exact absurd hp this
    | some b => simp [confirm, hf]
  · intro a h1 h2
    simp [markAuthorized, h1, h2]

/-- C7 witness: confirming the pending 1000.00 record succeeds under
"requires_capture" and fails with `AuthorizationNotReady` under
"succeeded". -/
theorem C7_confirm_requires_capture_witness :
    ("succeeded" ≠ "requires_capture") ∧
    confirm sPending 11 "succeeded" = .error .AuthorizationNotReady ∧
    (∃ a ∈ sPending.auths, a.external_reference = 11 ∧ a.status = .Pending) ∧
    confirm sPending 11 "requires_capture" =
      .ok { sPending with auths := sPending.auths.map (markAuthorized 11) } :=
  ⟨by decide,
    (C7_confirm_requires_capture sPending 11 "succeeded").1 (by decide),
    ⟨⟨1, 1000, .Pending, 11⟩, by decide, rfl, rfl⟩,
    (C7_confirm_requires_capture sPending 11 "requires_capture").2.2.2.1
      ⟨⟨1, 1000, .Pending, 11⟩, by decide, rfl, rfl⟩ rfl⟩

/-- C1: starting from a repayment with no authorization records, every
sequence of authorize/confirm/capture/cancel operations leaves at most one
`Authorized` Payment Authorization; and an `authorize` call made while an
`Authorized` record is outstanding is rejected with
`DuplicateAuthorization`. -/
theorem C1_at_most_one_authorized :
    (∀ (rep : Repayment) (ops : List Op),
      authorizedCount (runOps ⟨rep, []⟩ ops) ≤ 1) ∧
    (∀ (s : RepaymentState) (ra : Option ℚ) (fid ref : ℕ),
      (∃ a ∈ s.auths, a.status = .Authorized) →
      authorize s ra fid ref = .error .DuplicateAuthorization) := by
  constructor
  · intro rep ops
    refine le_trans (authorizedCount_le_activeCount _)
      (activeCount_le_one_runOps ops ⟨rep, []⟩ ?_)
    simp [activeCount]
  · rintro s ra fid ref ⟨a, ha, hstat⟩
    have hany : s.auths.any (fun a => a.status.isActive) = true :=
      List.any_eq_true.mpr ⟨a, ha, by rw [hstat]; rfl⟩
    simp [authorize, hany]

/-- C1 witness: a second authorize on the repayment holding the Authorized
1000.00 record is rejected with `DuplicateAuthorization`. -/
theorem C1_at_most_one_authorized_witness :
    (∃ a ∈ sAuthorized.auths, a.status = .Authorized) ∧
    authorize sAuthorized (some 500) 2 12 = .error .DuplicateAuthorization :=
  ⟨⟨⟨1, 1000, .Authorized, 11⟩, by decide, rfl⟩,
    C1_at_most_one_authorized.2 sAuthorized (some 500) 2 12
      ⟨⟨1, 1000, .Authorized, 11⟩, by decide, rfl⟩⟩

/-- C5: `Captured` and `Canceled` are terminal — no successful operation
changes such a record; `capture` and `cancel` on a terminal record both
fail with `InvalidState`; and a failed operation leaves the whole state
(in particular `amount_paid`) unchanged. -/
theorem C5_terminal_states :
    (∀ (s : RepaymentState) (op : Op) (s' : RepaymentState),
      step s op = .ok s' →
      ∀ a ∈ s.auths, a.status = .Captured ∨ a.status = .Canceled →
        a ∈ s'.auths) ∧
    (∀ (s : RepaymentState) (paId : ℕ) (a : PaymentAuthorization),
      s.auths.find? (hasId paId) = some a →
      a.status = .Captured ∨ a.status = .Canceled →
      (∀ now rcpt extOk, capture s paId now rcpt extOk = .error .InvalidState) ∧
      (∀ extOk, cancel s paId extOk = .error .InvalidState)) ∧
    (∀ (s : RepaymentState) (op : Op) (e : LifecycleError),
      step s op = .error e → runOp s op = s) := by
  refine ⟨?_, ?_, ?_⟩
  · intro s op s' h a ha hterm
    have hnotP : a.status ≠ .Pending := by
      rcases hterm with h1 | h1 <;> rw [h1] <;> intro hc <;> cases hc
    have hnotA : a.status ≠ .Authorized := by
      rcases hterm with h1 | h1 <;> rw [h1] <;> intro hc <;> cases hc
    cases op with
    | authorize ra fid ref =>
      replace h : authorize s ra fid ref = Except.ok s' := h
      unfold authorize at h
      split at h
      · exact absurd h (by simp)
      · split at h
        · cases h; exact List.mem_append_left _ ha
        · exact absurd h (by simp)
    | confirm ref cs =>
      replace h : confirm s ref cs = Except.ok s' := h
      unfold confirm at h
      split at h
      · split at h
        · exact absurd h (by simp)
        · cases h
          have hfix : markAuthorized ref a = a := by
            unfold markAuthorized
            rw [if_neg]
            rintro ⟨-, h2⟩
            exact hnotP h2
          exact hfix ▸ List.mem_map_of_mem (markAuthorized ref) ha
      · exact absurd h (by simp)
    | capture paId now rcpt extOk =>
      replace h : Except.map Prod.fst (capture s paId now rcpt extOk) =
          Except.ok s' := h
      cases hcap : capture s paId now rcpt extOk with
      | error e => rw [hcap] at h; exact absurd h (by simp [Except.map])
      | ok x =>
        rw [hcap] at h
        simp only [Except.map] at h
        cases h
        unfold capture at hcap
        split at hcap
        · exact absurd hcap (by simp)
        · split at hcap
          · split at hcap
            · cases hcap
              have hfix : markCaptured paId a = a := by
                unfold markCaptured
                rw [if_neg]
                rintro ⟨-, h2⟩
                exact hnotA h2
              exact hfix ▸ List.mem_map_of_mem (markCaptured paId) ha
            · exact absurd hcap (by simp)
          · exact absurd hcap (by simp)
    | cancel paId extOk =>
      replace h : cancel s paId extOk = Except.ok s' := h
      unfold cancel at h
      split at h
      · exact absurd h (by simp)
      · split at h
        · split at h
          · cases h
            have hfix : markCanceled paId a = a := by
              unfold markCanceled
              rw [if_neg]
              rintro ⟨-, h2⟩
              exact hnotA h2
            exact hfix ▸ List.mem_map_of_mem (markCanceled paId) ha
          · exact absurd h (by simp)
        · exact absurd h (by simp)
  · intro s paId a hfind hterm
    have hnotA : ¬(a.status = .Authorized) := by
      rcases hterm with h1 | h1 <;> rw [h1] <;> intro hc <;> cases hc
    constructor
    · intro now rcpt extOk
      unfold capture
      simp only [hfind]
      rw [if_neg hnotA]
    · intro extOk
      unfold cancel
      simp only [hfind]
      rw [if_neg hnotA]
  · intro s op e h
    unfold runOp
    rw [h]

/-- C5 witness: `cancel` on the Captured 1000.00 record fails with
`InvalidState`, and the failing step leaves the state — hence
`amount_paid` — untouched. -/
theorem C5_terminal_states_witness :
    sCaptured.auths.find? (hasId 1) = some ⟨1, 1000, .Captured, 11⟩ ∧
    ((⟨1, 1000, .Captured, 11⟩ : PaymentAuthorization).status = .Captured ∨
      (⟨1, 1000, .Captured, 11⟩ : PaymentAuthorization).status = .Canceled) ∧
    cancel sCaptured 1 true = .error .InvalidState ∧
    runOp sCaptured (.cancel 1 true) = sCaptured ∧
    (runOp sCaptured (.cancel 1 true)).rep.amount_paid =
      sCaptured.rep.amount_paid := by
  have h1 := (C5_terminal_states.2.1 sCaptured 1 ⟨1, 1000, .Captured, 11⟩
    rfl (Or.inl rfl)).2 true
  have h2 := C5_terminal_states.2.2 sCaptured (.cancel 1 true) .InvalidState h1
  exact ⟨rfl, Or.inl rfl, h1, h2, by rw [h2]⟩

/-- C3: authorize → confirm → capture on the fresh 1000.00 installment
ends Paid with `amount_paid = 1000` and receipt 77; in general a
successful capture marks the record Captured, adds the captured amount to
`amount_paid`, reconciles the repayment status, stores the receipt
reference and returns both. -/
theorem C3_capture_roundtrip :
    (authorize s1000 (some 1000) 1 11 = .ok sPending ∧
     confirm sPending 11 "requires_capture" = .ok sAuthorized ∧
     capture sAuthorized 1 20240601 77 true = .ok (sCaptured, .Paid, 77) ∧
     sCaptured.rep.status = .Paid ∧
     sCaptured.rep.amount_paid = 1000 ∧
     sCaptured.rep.receipt_reference = some 77) ∧
    (∀ (s : RepaymentState) (paId : ℕ) (now : ℤ) (rcpt : ℕ)
        (a : PaymentAuthorization),
      s.auths.find? (hasId paId) = some a →
      a.status = .Authorized →
      capture s paId now rcpt true =
        .ok (⟨{ s.rep with
                amount_paid := s.rep.amount_paid + a.amount,
                status := reconcile
                  { s.rep with amount_paid := s.rep.amount_paid + a.amount } now,
                receipt_reference := some rcpt },
              s.auths.map (markCaptured paId)⟩,
             reconcile
               { s.rep with amount_paid := s.rep.amount_paid + a.amount } now,
             rcpt)) := by
  constructor
  · refine ⟨?_, ?_, ?_, rfl, rfl, rfl⟩
    · norm_num [authorize, requestedOrRemaining, remaining, s1000, rep1000,
        sPending]
    · have hf : sPending.auths.find? (pendingWith 11) =
          some ⟨1, 1000, .Pending, 11⟩ := rfl
      unfold confirm
      rw [if_pos rfl]
      simp only [hf]
      show Except.ok (RepaymentState.mk sPending.rep
          (sPending.auths.map (markAuthorized 11))) = Except.ok sAuthorized
      apply congrArg
      simp [sPending, sAuthorized, markAuthorized]
    · have hf : sAuthorized.auths.find? (hasId 1) =
          some ⟨1, 1000, .Authorized, 11⟩ := rfl
      unfold capture
      simp only [hf, if_true]
      norm_num [sAuthorized, sCaptured, rep1000, repPaid1000, reconcile,
        markCaptured]
  · intro s paId now rcpt a hfind hstat
    unfold capture
    simp only [hfind, hstat, if_true]

/-- C3 witness: the general capture clause instantiated on the Authorized
1000.00 record. -/
theorem C3_capture_roundtrip_witness :
    sAuthorized.auths.find? (hasId 1) = some ⟨1, 1000, .Authorized, 11⟩ ∧
    ((⟨1, 1000, .Authorized, 11⟩ : PaymentAuthorization).status = .Authorized) ∧
    capture sAuthorized 1 20240601 77 true =
      .ok (⟨{ sAuthorized.rep with
              amount_paid := sAuthorized.rep.amount_paid + 1000,
              status := reconcile
                { sAuthorized.rep with
                  amount_paid := sAuthorized.rep.amount_paid + 1000 } 20240601,
              receipt_reference := some 77 },
            sAuthorized.auths.map (markCaptured 1)⟩,
           reconcile
             { sAuthorized.rep with
               amount_paid := sAuthorized.rep.amount_paid + 1000 } 20240601,
           77) :=
  ⟨rfl, rfl, C3_capture_roundtrip.2 sAuthorized 1 20240601 77
    ⟨1, 1000, .Authorized, 11⟩ rfl rfl⟩

/-- Every row of the schedule owes exactly the rounded monthly payment:
the final row's "total minus prior rows" expression collapses to `m`. -/
theorem scheduleRows_amount_due {P annual : ℚ} {n : ℕ} {c : ℤ} (hn : 1 ≤ n) :
    ∀ x ∈ scheduleRows P annual n c,
      x.amount_due = monthlyPayment P annual n := by
  intro x hx
  unfold scheduleRows at hx
  simp only [List.mem_map, List.mem_range] at hx
  obtain ⟨i, hi, rfl⟩ := hx
  dsimp only
  split_ifs with h
  · have hcast : ((n - 1 : ℕ) : ℚ) = (n : ℚ) - 1 := by
      push_cast [Nat.cast_sub hn]
      ring
    rw [hcast]
    ring
  · rfl

/-- The schedule's `amount_due` column is `n` copies of the monthly
payment. -/
theorem scheduleRows_map_amount_due {P annual : ℚ} {n : ℕ} {c : ℤ}
    (hn : 1 ≤ n) :
    (scheduleRows P annual n c).map Installment.amount_due =
      List.replicate n (monthlyPayment P annual n) := by
  rw [List.eq_replicate_iff]
  constructor
  · simp [scheduleRows]
  · intro b hb
    simp only [List.mem_map] at hb
    obtain ⟨x, hx, rfl⟩ := hb
    exact scheduleRows_amount_due hn x hx

/-- A monthly payment whose exact value is at least half a minor unit
rounds to a positive amount. -/
theorem monthlyPayment_pos {P annual : ℚ} {n : ℕ}
    (h : 1 / 200 ≤ monthlyPaymentExact P annual n) :
    0 < monthlyPayment P annual n := by
  unfold monthlyPayment round2
  have h1 : (1 : ℤ) ≤ ⌊monthlyPaymentExact P annual n * 100 + 1 / 2⌋ := by
    rw [Int.le_floor]
    push_cast
    linarith
  have h2 : (1 : ℚ) ≤ ((⌊monthlyPaymentExact P annual n * 100 + 1 / 2⌋ : ℤ) : ℚ) := by
    exact_mod_cast h1
  linarith

/-- C2 (amended): for valid loan terms `generateSchedule` succeeds with
exactly `duration` installments, the monthly payment follows the
amortization formula rounded half-up to 2 decimals, the `amount_due`
column sums exactly to `m * duration` (the rounding remainder being
absorbed by the final installment), due dates strictly increase, and —
provided the exact monthly payment is at least half a minor unit — every
`amount_due` is positive. -/
theorem C2_generateSchedule_valid :
    ∀ (P annual : ℚ) (n : ℕ) (c : ℤ),
    0 < P → 1 ≤ n → 0 ≤ annual →
    generateSchedule P annual n c = .ok (scheduleRows P annual n c) ∧
    (scheduleRows P annual n c).length = n ∧
    (annual = 0 → monthlyPayment P annual n = round2 (P / n)) ∧
    (annual ≠ 0 → monthlyPayment P annual n =
      round2 (P * (annual / 12) / (1 - (1 + annual / 12) ^ (-(n : ℤ))))) ∧
    ((scheduleRows P annual n c).map Installment.amount_due).sum =
      monthlyPayment P annual n * n ∧
    List.Pairwise (· < ·)
      ((scheduleRows P annual n c).map Installment.due_date) ∧
    (1 / 200 ≤ monthlyPaymentExact P annual n →
      ∀ x ∈ scheduleRows P annual n c, 0 < x.amount_due) := by
  intro P annual n c hP hn hr
  refine ⟨?_, ?_, ?_, ?_, ?_, ?_, ?_⟩
  · unfold generateSchedule
    rw [if_pos ⟨hP, hn, hr⟩]
  · simp [scheduleRows]
  · intro h0
    subst h0
    unfold monthlyPayment monthlyPaymentExact
    norm_num
  · intro hne
    unfold monthlyPayment monthlyPaymentExact
    rw [if_neg (div_ne_zero hne (by norm_num))]
  · rw [scheduleRows_map_amount_due hn, List.sum_replicate, nsmul_eq_mul,
      mul_comm]
  · have hmap : (scheduleRows P annual n c).map Installment.due_date =
        (List.range n).map (fun i : ℕ => c + (i : ℤ) + 1) := by
      unfold scheduleRows
      rw [List.map_map]
      rfl
    rw [hmap, List.pairwise_map]
    exact (List.pairwise_lt_range n).imp (fun {i j} hij => by omega)
  · intro hhalf x hx
    rw [scheduleRows_amount_due hn x hx]
    exact monthlyPayment_pos hhalf

/-- C2 witness: a 1200.00 loan at zero interest over 12 months — the exact
monthly payment 100.00 clears the half-cent bar and all conclusions hold. -/
theorem C2_generateSchedule_valid_witness :
    0 < (1200 : ℚ) ∧ 1 ≤ 12 ∧ (0 : ℚ) ≤ 0 ∧
    (1 / 200 ≤ monthlyPaymentExact 1200 0 12) ∧
    (generateSchedule 1200 0 12 0 = .ok (scheduleRows 1200 0 12 0) ∧
     (scheduleRows 1200 0 12 0).length = 12 ∧
     ((0 : ℚ) = 0 → monthlyPayment 1200 0 12 = round2 (1200 / (12 : ℕ))) ∧
     ((0 : ℚ) ≠ 0 → monthlyPayment 1200 0 12 =
       round2 (1200 * ((0 : ℚ) / 12) / (1 - (1 + (0 : ℚ) / 12) ^ (-(12 : ℤ))))) ∧
     ((scheduleRows 1200 0 12 0).map Installment.amount_due).sum =
       monthlyPayment 1200 0 12 * 12 ∧
     List.Pairwise (· < ·)
       ((scheduleRows 1200 0 12 0).map Installment.due_date) ∧
     (1 / 200 ≤ monthlyPaymentExact 1200 0 12 →
       ∀ x ∈ scheduleRows 1200 0 12 0, 0 < x.amount_due)) :=
  ⟨by norm_num, by norm_num, le_refl 0,
    by norm_num [monthlyPaymentExact],
    C2_generateSchedule_valid 1200 0 12 0 (by norm_num) (by norm_num)
      (le_refl 0)⟩

/-- C2 counterexample: the claim's "all `amount_due > 0`" fails as stated —
a 0.004 principal over one month at zero interest rounds the single
installment's amount to 0.00. -/
theorem C2_generateSchedule_counterexample :
    0 < (1 / 250 : ℚ) ∧ 1 ≤ 1 ∧ (0 : ℚ) ≤ 0 ∧
    generateSchedule (1 / 250) 0 1 0 = .ok (scheduleRows (1 / 250) 0 1 0) ∧
    (scheduleRows (1 / 250) 0 1 0).map Installment.amount_due = [0] ∧
    ¬(∀ x ∈ scheduleRows (1 / 250) 0 1 0, 0 < x.amount_due) := by
  have hm : monthlyPayment (1 / 250) 0 1 = 0 := by
    unfold monthlyPayment monthlyPaymentExact round2
    norm_num
  have hrows : scheduleRows (1 / 250) 0 1 0 = [⟨1, 1, 0⟩] := by
    unfold scheduleRows
    rw [hm]
    norm_num [List.range_succ]
  refine ⟨by norm_num, le_refl 1, le_refl 0, ?_, ?_, ?_⟩
  · unfold generateSchedule
    rw [if_pos ⟨by norm_num, le_refl 1, le_refl 0⟩]
  · rw [hrows]; rfl
  · intro hall
    have hx : (⟨1, 1, 0⟩ : Installment) ∈ scheduleRows (1 / 250) 0 1 0 := by
      rw [hrows]; exact List.mem_singleton_self _
    have := hall _ hx
    norm_num at this

end TrustEdge
